import Mathlib

set_option maxRecDepth 8000

/-!
Verification of the BEJO backend's tiered retrieval, result merging, chat-history
persistence, SQL tool and agent configuration, against a shallow embedding of
the Python sources in `bejo_be/`.

Conventions of the embedding:
* Python floats (similarity scores, retriever weights) are modelled as `ℚ`.
* Python dicts keyed by small integers become functions `Nat → Option _`.
* Fallible code returns `Except`; exceptions that the Python code catches and
  logs are modelled by Boolean success oracles, so the embedded operation is a
  total function on states.
* Content hashes (`hash(...)`, `md5`) are modelled by the hashed text itself,
  i.e. hashing is assumed collision-free on the inputs that occur.
-/

namespace BejoBe

/-! ### Level-to-collection tables

`RetrievalService.collection_levels` (app/core/retrieval.py, lines 95-109) and
`Settings.ACCESS_PERMISSIONS` (app/core/config.py, lines 40-54) are two
duplicated literal dicts mapping an ISA-95 level to the list of collection
names that level may read.  Both are only ever read after construction (no
assignment or mutation of either dict appears anywhere in the sources), so
they are embedded as constants. -/

/-- The collection name `bejo-knowledge-level-<i>` used throughout the code. -/
def collectionName (i : Nat) : String :=
  "bejo-knowledge-level-" ++ toString i

/-- `RetrievalService.collection_levels` from app/core/retrieval.py. -/
def collection_levels : Nat → Option (List String)
  | 1 => some ["bejo-knowledge-level-1"]
  | 2 => some ["bejo-knowledge-level-1", "bejo-knowledge-level-2"]
  | 3 => some ["bejo-knowledge-level-1", "bejo-knowledge-level-2",
               "bejo-knowledge-level-3"]
  | 4 => some ["bejo-knowledge-level-1", "bejo-knowledge-level-2",
               "bejo-knowledge-level-3", "bejo-knowledge-level-4"]
  | _ => none

/-- `Settings.ACCESS_PERMISSIONS` from app/core/config.py. -/
def ACCESS_PERMISSIONS : Nat → Option (List String)
  | 1 => some ["bejo-knowledge-level-1"]
  | 2 => some ["bejo-knowledge-level-1", "bejo-knowledge-level-2"]
  | 3 => some ["bejo-knowledge-level-1", "bejo-knowledge-level-2",
               "bejo-knowledge-level-3"]
  | 4 => some ["bejo-knowledge-level-1", "bejo-knowledge-level-2",
               "bejo-knowledge-level-3", "bejo-knowledge-level-4"]
  | _ => none

/-- C1: Tiered access is monotone.  For all levels `1 ≤ m ≤ n ≤ 4`, both
level-to-collection tables (`collection_levels` in the retrieval service
and `ACCESS_PERMISSIONS` in the settings) give level `m` a subset of the
collections given to level `n`, strictly when `m < n`; and level `n` maps
exactly to `bejo-knowledge-level-1 .. bejo-knowledge-level-n`.  (The tables
are constants of the embedding: no operation in the sources writes to them
after construction.) -/
theorem tiered_access_monotone (m n : Nat) (h1 : 1 ≤ m) (h2 : m ≤ n) (h3 : n ≤ 4) :
    ∃ cm cn, collection_levels m = some cm ∧ collection_levels n = some cn ∧
      ACCESS_PERMISSIONS m = some cm ∧ ACCESS_PERMISSIONS n = some cn ∧
      cm ⊆ cn ∧ (m < n → ∃ c, c ∈ cn ∧ c ∉ cm) ∧
      cn = (List.range n).map (fun i => collectionName (i + 1)) := by
  have hm4 : m ≤ 4 := le_trans h2 h3
  interval_cases m <;> interval_cases n <;>
    refine ⟨_, _, rfl, rfl, rfl, rfl, by decide, ?_, by decide⟩ <;>
    first
      | exact fun h => absurd h (by decide)
      | exact fun _ => by decide

/-- Witness for `tiered_access_monotone` at `m = 2`, `n = 3`. -/
theorem tiered_access_monotone_witness :
    (1 ≤ 2 ∧ 2 ≤ 3 ∧ 3 ≤ 4) ∧
    ∃ cm cn, collection_levels 2 = some cm ∧ collection_levels 3 = some cn ∧
      ACCESS_PERMISSIONS 2 = some cm ∧ ACCESS_PERMISSIONS 3 = some cn ∧
      cm ⊆ cn ∧ (2 < 3 → ∃ c, c ∈ cn ∧ c ∉ cm) ∧
      cn = (List.range 3).map (fun i => collectionName (i + 1)) :=
  ⟨by decide, tiered_access_monotone 2 3 (by decide) (by decide) (by decide)⟩

/-! ### Retrieval strategies

`RetrievalService.get_retriever_for_level` (app/core/retrieval.py, lines
157-214) selects retrievers for a level.  A retriever is identified by the
collection it queries and its `k` search parameter; a hybrid strategy carries
one retriever per collection plus a weight list.  Whether a collection's
vector store was successfully initialized is abstracted by `avail` (in the
source, membership in `self.vector_stores`). -/

/-- A vector-store retriever, identified by its collection and `k`. -/
structure Retriever where
  collection : String
  k : Nat
deriving DecidableEq, Repr

/-- The value returned by `get_retriever_for_level`: either a plain
single-collection retriever or a `HybridRetrievalStrategy` with weights. -/
inductive RetrieverChoice where
  | basic (r : Retriever)
  | hybrid (retrievers : List Retriever) (weights : List ℚ)
deriving DecidableEq, Repr

/-- `RetrievalService.get_retriever_for_level` (app/core/retrieval.py,
lines 157-214).  `kwargs` are not passed, so the `basic` branch uses the
default `{"k": 3}`.  The hierarchical branch mirrors
`enumerate(reversed(collections))`: the weight `1.0 + i * 0.2` is indexed by
the position in the reversed list, counting skipped (unavailable) collections
as in the source. -/
def get_retriever_for_level (avail : String → Bool) (level : Nat)
    (strategy : String) : Except String (Option RetrieverChoice) :=
  match collection_levels level with
  | none => .error ("Invalid ISA-95 level: " ++ toString level)
  | some collections =>
    let available_stores := collections.filter avail
    if available_stores.isEmpty then
      .ok none
    else if strategy = "basic" then
      let target_collection := collections.getLastD ""
      if avail target_collection then
        .ok (some (.basic ⟨target_collection, 3⟩))
      else
        .ok none
    else if strategy = "hierarchical" then
      let pairs := collections.reverse.enum.filterMap fun p =>
        if avail p.2 then some (Retriever.mk p.2 2, (1 : ℚ) + p.1 * (1 / 5)) else none
      if pairs.isEmpty then
        .ok none
      else
        .ok (some (.hybrid (pairs.map Prod.fst) (pairs.map Prod.snd)))
    else if strategy = "comprehensive" then
      .ok (some (.hybrid (available_stores.map fun c => ⟨c, 2⟩)
        (List.replicate available_stores.length 1)))
    else
      .ok none

/-- C2 (refuted by the code; evaluation at the failing input): at level 2
with all stores available, the `hierarchical` strategy builds the retrievers
starting from the most specific collection, and assigns the level-2
(more specific) retriever weight `1.0` but the level-1 retriever weight
`1.0 + 0.2` — so the lower level receives the strictly greater weight,
contrary to the claim (and to the source's own comment
"Give higher weight to more specific levels"). -/
theorem hierarchical_weights_favor_lower_levels :
    get_retriever_for_level (fun _ => true) 2 "hierarchical" =
      .ok (some (.hybrid
        [⟨"bejo-knowledge-level-2", 2⟩, ⟨"bejo-knowledge-level-1", 2⟩]
        [1, 1 + 1 / 5])) ∧
    (1 : ℚ) < 1 + 1 / 5 := by
  constructor
  · norm_num [get_retriever_for_level, collection_levels, List.filter, List.enum,
      List.enumFrom, List.filterMap]
    exact fun h => absurd h (by decide)
  · norm_num

/-- C5: with all vector stores initialized, the `basic` strategy returns one
plain retriever over exactly the last (highest-numbered) collection visible
to the level, with the default `k = 3`. -/
theorem basic_strategy_queries_highest_collection
    (avail : String → Bool) (hav : ∀ c, avail c = true)
    (level : Nat) (h1 : 1 ≤ level) (h2 : level ≤ 4) :
    get_retriever_for_level avail level "basic" =
      .ok (some (.basic ⟨collectionName level, 3⟩)) ∧
    ∃ cs, collection_levels level = some cs ∧
      cs.getLastD "" = collectionName level := by
  interval_cases level <;>
    exact ⟨by simp [get_retriever_for_level, collection_levels, collectionName,
      List.filter, hav]; rfl, ⟨_, rfl, by decide⟩⟩

/-- Witness for `basic_strategy_queries_highest_collection` at level 3 with
every collection available. -/
theorem basic_strategy_queries_highest_collection_witness :
    get_retriever_for_level (fun _ => true) 3 "basic" =
      .ok (some (.basic ⟨collectionName 3, 3⟩)) ∧
    ∃ cs, collection_levels 3 = some cs ∧
      cs.getLastD "" = collectionName 3 :=
  basic_strategy_queries_highest_collection (fun _ => true) (fun _ => rfl) 3
    (by decide) (by decide)

/-- C6: with all vector stores initialized, the `comprehensive` strategy
returns a hybrid retriever over every collection visible to the level, and
the weight list is `[1.0, ..., 1.0]` (the `HybridRetrievalStrategy.__init__`
default), so no level is favored. -/
theorem comprehensive_strategy_equal_weights
    (avail : String → Bool) (hav : ∀ c, avail c = true)
    (level : Nat) (h1 : 1 ≤ level) (h2 : level ≤ 4) :
    ∃ cs, collection_levels level = some cs ∧
      get_retriever_for_level avail level "comprehensive" =
        .ok (some (.hybrid (cs.map fun c => ⟨c, 2⟩)
          (List.replicate cs.length 1))) := by
  interval_cases level <;>
    exact ⟨_, rfl, by simp [get_retriever_for_level, collection_levels,
      List.filter, hav]⟩

/-- Witness for `comprehensive_strategy_equal_weights` at level 4 with every
collection available. -/
theorem comprehensive_strategy_equal_weights_witness :
    ∃ cs, collection_levels 4 = some cs ∧
      get_retriever_for_level (fun _ => true) 4 "comprehensive" =
        .ok (some (.hybrid (cs.map fun c => ⟨c, 2⟩)
          (List.replicate cs.length 1))) :=
  comprehensive_strategy_equal_weights (fun _ => true) (fun _ => rfl) 4
    (by decide) (by decide)

/-! ### Result merging: `HybridRetrievalStrategy._deduplicate_and_rank`

app/core/retrieval.py, lines 56-80.  A document is its page content plus the
optional `"score"` entry of its metadata (the only metadata the merge step
reads).  `hash(doc.page_content[:100])` is modelled by the 100-character
prefix itself (hashing assumed collision-free).  Python's `list.sort` with
`reverse=True` is stable and keeps equal-scored elements in input order;
`List.insertionSort` with the non-strict descending relation `scoreGe` is the
same stable descending sort. -/

/-- A retrieved document: page content and the optional metadata score. -/
structure Document where
  page_content : String
  score : Option ℚ
deriving DecidableEq, Repr

/-- The deduplication key: `doc.page_content[:100]` (whose Python `hash` is
modelled as the prefix itself). -/
def dedupKey (d : Document) : String := d.page_content.take 100

/-- The sort key `x.metadata.get("score", 0)`. -/
def scoreD (d : Document) : ℚ := d.score.getD 0

/-- `a` ranks at or above `b`: descending order of scores. -/
def scoreGe (a b : Document) : Prop := scoreD b ≤ scoreD a

instance : DecidableRel scoreGe := fun a b =>
  inferInstanceAs (Decidable (scoreD b ≤ scoreD a))

instance : IsTotal Document scoreGe :=
  ⟨fun a b => (le_total (scoreD b) (scoreD a)).imp (fun h => h) (fun h => h)⟩

instance : IsTrans Document scoreGe := ⟨fun _ _ _ h1 h2 => le_trans h2 h1⟩

/-- The `seen`-set loop of `_deduplicate_and_rank` (lines 64-70): keep a
document when its key has not been seen, recording the key. -/
def dedupLoop : List Document → List String → List Document
  | [], _ => []
  | d :: rest, seen =>
    if dedupKey d ∈ seen then dedupLoop rest seen
    else d :: dedupLoop rest (dedupKey d :: seen)

/-- The sort condition of lines 72-77: the list is nonempty and its first
element's metadata has a `"score"` entry. -/
def headHasScore (l : List Document) : Bool :=
  match l.head? with
  | some d => d.score.isSome
  | none => false

/-- `HybridRetrievalStrategy._deduplicate_and_rank` (lines 56-80). -/
def deduplicate_and_rank (docs : List Document) : List Document :=
  let unique_docs := dedupLoop docs []
  let ranked := if headHasScore unique_docs then
      List.insertionSort scoreGe unique_docs
    else unique_docs
  ranked.take 5

/-- Modelled from the spec's words (for comparison with `dedupLoop`): keep
the first occurrence of each distinct leading-text prefix, in input order. -/
def keepFirstOccurrences : List Document → List Document
  | [] => []
  | d :: rest =>
    d :: keepFirstOccurrences (rest.filter fun d2 => dedupKey d2 != dedupKey d)
termination_by l => l.length
decreasing_by
  simp only [List.length_cons]
  exact Nat.lt_succ_of_le (List.length_filter_le _ _)

/-- The `seen` loop with an initial seen set behaves as "drop everything
already seen, then keep first occurrences". -/
theorem dedupLoop_eq_keepFirstOccurrences_filter (l : List Document) :
    ∀ seen, dedupLoop l seen =
      keepFirstOccurrences (l.filter fun d => decide (dedupKey d ∉ seen)) := by
  induction l with
  | nil => intro seen; simp [dedupLoop, keepFirstOccurrences]
  | cons d rest ih =>
    intro seen
    by_cases h : dedupKey d ∈ seen
    · have hp : decide (dedupKey d ∉ seen) = false := by simp [h]
      rw [dedupLoop, if_pos h, List.filter_cons, hp]
      simp only [Bool.false_eq_true, if_false]
      exact ih seen
    · have hp : decide (dedupKey d ∉ seen) = true := by simp [h]
      rw [dedupLoop, if_neg h, List.filter_cons, hp, if_pos rfl,
        ih (dedupKey d :: seen)]
      have hfilter :
          rest.filter (fun d2 => decide (dedupKey d2 ∉ dedupKey d :: seen)) =
            (rest.filter fun d2 => decide (dedupKey d2 ∉ seen)).filter
              (fun d2 => dedupKey d2 != dedupKey d) := by
        rw [List.filter_filter]
        refine (List.filter_congr fun d2 _ => ?_).symm
        by_cases h1 : dedupKey d2 = dedupKey d <;>
          by_cases h2 : dedupKey d2 ∈ seen <;>
          simp [h1, h2]
      rw [hfilter]
      conv_rhs => rw [keepFirstOccurrences]

/-- `dedupLoop` with the empty seen set is exactly the spec's
first-occurrence filter. -/
theorem dedupLoop_nil_eq_keepFirstOccurrences (l : List Document) :
    dedupLoop l [] = keepFirstOccurrences l := by
  rw [dedupLoop_eq_keepFirstOccurrences_filter l []]
  congr 1
  simp

/-- The dedup loop only drops documents, preserving input order. -/
theorem dedupLoop_sublist (l : List Document) :
    ∀ seen, List.Sublist (dedupLoop l seen) l := by
  induction l with
  | nil => intro seen; simp [dedupLoop]
  | cons d rest ih =>
    intro seen
    by_cases h : dedupKey d ∈ seen
    · rw [dedupLoop, if_pos h]
      exact (ih seen).cons d
    · rw [dedupLoop, if_neg h]
      exact (ih (dedupKey d :: seen)).cons₂ d

/-- Every kept document's key was not in the initial seen set. -/
theorem mem_dedupLoop_not_seen {l : List Document} :
    ∀ {seen d}, d ∈ dedupLoop l seen → dedupKey d ∉ seen := by
  induction l with
  | nil => intro seen d h; simp [dedupLoop] at h
  | cons e rest ih =>
    intro seen d h
    by_cases he : dedupKey e ∈ seen
    · rw [dedupLoop, if_pos he] at h
      exact ih h
    · rw [dedupLoop, if_neg he] at h
      rcases List.mem_cons.mp h with rfl | h
      · exact he
      · intro hd
        exact ih h (List.mem_cons_of_mem _ hd)

/-- The kept documents have pairwise distinct keys. -/
theorem pairwise_dedupLoop (l : List Document) :
    ∀ seen, (dedupLoop l seen).Pairwise fun a b => dedupKey a ≠ dedupKey b := by
  induction l with
  | nil => intro seen; simp [dedupLoop]
  | cons d rest ih =>
    intro seen
    by_cases h : dedupKey d ∈ seen
    · simpa [dedupLoop, if_pos h] using ih seen
    · rw [dedupLoop, if_neg h]
      refine List.Pairwise.cons (fun d2 h2 hkey => ?_) (ih _)
      have hnot := mem_dedupLoop_not_seen h2
      rw [← hkey] at hnot
      exact hnot (List.mem_cons_self _ _)

/-- Every input document's key survives in the dedup output (or was already
seen). -/
theorem dedupLoop_covers (l : List Document) :
    ∀ seen d, d ∈ l → dedupKey d ∈ seen ∨
      ∃ d2 ∈ dedupLoop l seen, dedupKey d2 = dedupKey d := by
  induction l with
  | nil => intro seen d h; simp at h
  | cons e rest ih =>
    intro seen d h
    by_cases he : dedupKey e ∈ seen
    · rw [dedupLoop, if_pos he]
      rcases List.mem_cons.mp h with rfl | h
      · exact Or.inl he
      · exact ih seen d h
    · rw [dedupLoop, if_neg he]
      rcases List.mem_cons.mp h with rfl | h
      · exact Or.inr ⟨d, List.mem_cons_self _ _, rfl⟩
      · rcases ih (dedupKey e :: seen) d h with hseen | ⟨d2, hd2, hkey⟩
        · rcases List.mem_cons.mp hseen with heq | hseen
          · exact Or.inr ⟨e, List.mem_cons_self _ _, heq.symm⟩
          · exact Or.inl hseen
        · exact Or.inr ⟨d2, List.mem_cons_of_mem _ hd2, hkey⟩

/-- C3 (counterexample to the claim as stated): on the input
`[⟨"A", no score⟩, ⟨"B", score 5⟩, ⟨"C", score 10⟩]` — scores are present,
there are no duplicate prefixes — the merge step returns the input order
unsorted, because the source only sorts when the FIRST surviving document
has a `"score"` entry (lines 73-77), and here the first has none. -/
theorem dedup_rank_no_sort_counterexample :
    deduplicate_and_rank
        [⟨"A", none⟩, ⟨"B", some 5⟩, ⟨"C", some 10⟩]
      = [⟨"A", none⟩, ⟨"B", some 5⟩, ⟨"C", some 10⟩] ∧
    ¬ List.Sorted scoreGe
        (deduplicate_and_rank [⟨"A", none⟩, ⟨"B", some 5⟩, ⟨"C", some 10⟩]) := by
  constructor
  · decide
  · intro hsorted
    rw [show deduplicate_and_rank [⟨"A", none⟩, ⟨"B", some 5⟩, ⟨"C", some 10⟩]
        = [⟨"A", none⟩, ⟨"B", some 5⟩, ⟨"C", some 10⟩] from by decide] at hsorted
    have h5 := List.rel_of_sorted_cons hsorted ⟨"B", some 5⟩ (by norm_num)
    norm_num [scoreGe, scoreD] at h5

/-- C3 as amended: the merge step keeps the first occurrence of each
distinct 100-character prefix in input order, then sorts the survivors by
descending score (missing scores counted as `0`) — but only when the first
surviving document carries a score, otherwise input order is kept — and
finally returns at most 5 documents. -/
theorem dedup_sort_truncate_spec (docs : List Document) :
    deduplicate_and_rank docs =
      (if headHasScore (keepFirstOccurrences docs)
        then List.insertionSort scoreGe (keepFirstOccurrences docs)
        else keepFirstOccurrences docs).take 5 ∧
    (deduplicate_and_rank docs).length ≤ 5 ∧
    ((keepFirstOccurrences docs).Pairwise fun a b => dedupKey a ≠ dedupKey b) ∧
    List.Sublist (keepFirstOccurrences docs) docs ∧
    (∀ d ∈ docs, ∃ d2 ∈ keepFirstOccurrences docs, dedupKey d2 = dedupKey d) ∧
    (headHasScore (keepFirstOccurrences docs) = true →
      List.Sorted scoreGe (deduplicate_and_rank docs)) := by
  refine ⟨?_, ?_, ?_, ?_, ?_, ?_⟩
  · rw [deduplicate_and_rank, dedupLoop_nil_eq_keepFirstOccurrences]
  · rw [deduplicate_and_rank]
    exact List.length_take_le 5 _
  · rw [← dedupLoop_nil_eq_keepFirstOccurrences]
    exact pairwise_dedupLoop docs []
  · rw [← dedupLoop_nil_eq_keepFirstOccurrences]
    exact dedupLoop_sublist docs []
  · intro d hd
    rcases dedupLoop_covers docs [] d hd with habs | hex
    · simp at habs
    · rw [← dedupLoop_nil_eq_keepFirstOccurrences]
      exact hex
  · intro hhead
    rw [deduplicate_and_rank, dedupLoop_nil_eq_keepFirstOccurrences, if_pos hhead]
    exact (List.sorted_insertionSort scoreGe _).sublist (List.take_sublist _ _)

/-- Witness for `dedup_sort_truncate_spec` on a concrete input with a
duplicate prefix and a scored first survivor. -/
theorem dedup_sort_truncate_spec_witness :
    (∃ d2 ∈ keepFirstOccurrences
        [⟨"b", some 1⟩, ⟨"c", some 2⟩, ⟨"b", some 3⟩],
      dedupKey d2 = dedupKey ⟨"b", some 3⟩) ∧
    List.Sorted scoreGe
      (deduplicate_and_rank [⟨"b", some 1⟩, ⟨"c", some 2⟩, ⟨"b", some 3⟩]) := by
  refine ⟨(dedup_sort_truncate_spec _).2.2.2.2.1 ⟨"b", some 3⟩ (by decide), ?_⟩
  refine (dedup_sort_truncate_spec _).2.2.2.2.2 ?_
  rw [← dedupLoop_nil_eq_keepFirstOccurrences]
  decide

/-! ### Chat history: `QdrantChatMessageHistory`

app/services/chat_history.py.  The state is the in-memory message list, the
pending queue, the message counter and the (advisory) persistent store.  The
Python persistence path catches every exception and only logs it
(`_store_message_async`, lines 133-134; `flush_pending_messages`, lines
154-157), so its embedding is a total function in which a failed store —
modelled by a Boolean success oracle per message — simply leaves the store
unwritten. -/

/-- A chat message type tag (`"human"` / `"ai"`). -/
inductive MsgType where
  | human
  | ai
deriving DecidableEq, Repr

/-- A chat message. -/
structure Message where
  type : MsgType
  content : String
deriving DecidableEq, Repr

/-- A point persisted in the chat-history collection (its payload). -/
structure StoredPoint where
  session_id : String
  type : MsgType
  content : String
  message_index : Nat
deriving DecidableEq, Repr

/-- The mutable state of one `QdrantChatMessageHistory` instance together
with its session's slice of the persistent store. -/
structure HistoryState where
  session_id : String
  messages : List Message
  pending_messages : List Message
  message_counter : Nat
  store : List StoredPoint
deriving DecidableEq, Repr

/-- `QdrantChatMessageHistory.add_message` (lines 83-93): append to the
in-memory list and to the pending queue, under the lock. -/
def add_message (s : HistoryState) (m : Message) : HistoryState :=
  { s with
    messages := s.messages ++ [m]
    pending_messages := s.pending_messages ++ [m] }

/-- `QdrantChatMessageHistory._store_message_async` (lines 95-134) with an
explicit `message_index` (the path used by `flush_pending_messages`).  `ok`
is the success oracle: `ok = false` models an exception from the store
client, which the source catches and logs, leaving every field but the
store untouched and raising nothing. -/
def store_message_async (s : HistoryState) (m : Message) (message_index : Nat)
    (ok : Bool) : HistoryState :=
  if ok then
    { s with store := s.store ++
        [⟨s.session_id, m.type, m.content, message_index⟩] }
  else
    s

/-- `QdrantChatMessageHistory.flush_pending_messages` (lines 136-159): copy
and clear the pending queue under the lock, then best-effort store each
pending message at `starting_index + i`. -/
def flush_pending_messages (s : HistoryState) (ok : Nat → Bool) : HistoryState :=
  let messages_to_store := s.pending_messages
  let starting_index := s.message_counter - messages_to_store.length
  let s1 := { s with pending_messages := ([] : List Message) }
  messages_to_store.enum.foldl
    (fun st p => store_message_async st p.2 (starting_index + p.1) (ok p.1)) s1

/-- Storing never changes the in-memory message list, whatever the oracle. -/
theorem store_foldl_messages_invariant (l : List (Nat × Message))
    (f : Nat × Message → Nat) (ok : Nat → Bool) :
    ∀ st : HistoryState,
      (l.foldl (fun st p => store_message_async st p.2 (f p) (ok p.1)) st).messages
        = st.messages := by
  induction l with
  | nil => intro st; rfl
  | cons p rest ih =>
    intro st
    rw [List.foldl_cons, ih]
    by_cases h : ok p.1 <;> simp [store_message_async, h]

/-- C4: a message added via `add_message` appears in the in-memory list
immediately, and the persistence path — `store_message_async` on any single
message and `flush_pending_messages` over the whole queue, under every
pattern of store failures (`ok` oracles) — never changes the in-memory
list: persistence errors are absorbed (the embedded operations are total)
and no failure removes or rolls back an in-memory message. -/
theorem add_message_immediate_and_persistence_harmless
    (s : HistoryState) (m : Message) :
    (add_message s m).messages = s.messages ++ [m] ∧
    (∀ idx ok, (store_message_async s m idx ok).messages = s.messages) ∧
    (∀ ok, (flush_pending_messages s ok).messages = s.messages ∧
      (flush_pending_messages s ok).pending_messages = []) := by
  refine ⟨rfl, fun idx ok => ?_, fun ok => ⟨?_, ?_⟩⟩
  · by_cases h : ok <;> simp [store_message_async, h]
  · rw [flush_pending_messages, store_foldl_messages_invariant]
  · rw [flush_pending_messages]
    have hpend : ∀ (l : List (Nat × Message)) (st : HistoryState) (c : Nat),
        st.pending_messages = [] →
        (l.foldl (fun st p => store_message_async st p.2 (c + p.1) (ok p.1))
          st).pending_messages = [] := by
      intro l
      induction l with
      | nil => intro st c h; exact h
      | cons p rest ih =>
        intro st c h
        rw [List.foldl_cons]
        refine ih _ c ?_
        by_cases hok : ok p.1 <;> simp [store_message_async, hok, h]
    exact hpend _ _ _ rfl

/-! ### The SQL tool: `SQLTool` (app/crew/tools/database.py)

State: fetched tables/columns, the cached per-table sample data, the TTL
result cache (an association list keyed by the query and its parameters —
the `md5` cache key is modelled by the hashed text itself), and the stored
schema hash.  The schema hash function (`md5(json.dumps(columns))`) is an
abstract parameter `hashF`.  The database is abstracted by the schema rows a
metadata fetch would return and the rows a query would return. -/

/-- The schema: table name to column list, as `_columns` is built. -/
def Schema : Type := List (String × List String)

instance : DecidableEq Schema := inferInstanceAs (DecidableEq (List _))

/-- The mutable state of a `SQLTool` instance. -/
structure SQLToolState where
  tables : List String
  columns : Schema
  sample_data : List (String × List (String × List String))
  cache : List ((String × String) × List String)
  schema_hash : String

/-- `SQLTool.check_schema_changes` (lines 188-203): reload the metadata
(`newTables`, `newColumns` are what `_fetch_metadata` reads from
`information_schema`), recompute the hash (`_update_schema_hash`, lines
74-77), and when it differs from the stored hash clear the result cache and
the sample data and return `True`; otherwise return `False`. -/
def check_schema_changes (hashF : Schema → String) (s : SQLToolState)
    (newTables : List String) (newColumns : Schema) : Bool × SQLToolState :=
  let old_hash := s.schema_hash
  let s1 := { s with
    tables := newTables
    columns := newColumns
    schema_hash := hashF newColumns }
  if old_hash ≠ s1.schema_hash then
    (true, { s1 with
      cache := ([] : List ((String × String) × List String))
      sample_data := ([] : List (String × List (String × List String))) })
  else
    (false, s1)

/-- C7: `check_schema_changes` returns `True` — and then empties the TTL
result cache and the cached sample data — exactly when the recomputed schema
hash differs from the previously stored one; on `False` the cache and the
sample data are exactly as before.  In both cases the stored hash becomes
the recomputed one. -/
theorem check_schema_changes_invalidates_iff_hash_changed
    (hashF : Schema → String) (s : SQLToolState)
    (newTables : List String) (newColumns : Schema) :
    ((check_schema_changes hashF s newTables newColumns).1 = true ↔
      hashF newColumns ≠ s.schema_hash) ∧
    (check_schema_changes hashF s newTables newColumns).2.schema_hash
      = hashF newColumns ∧
    (check_schema_changes hashF s newTables newColumns).2.cache
      = (if (check_schema_changes hashF s newTables newColumns).1
          then ([] : List ((String × String) × List String)) else s.cache) ∧
    (check_schema_changes hashF s newTables newColumns).2.sample_data
      = (if (check_schema_changes hashF s newTables newColumns).1
          then ([] : List (String × List (String × List String)))
          else s.sample_data) := by
  by_cases h : s.schema_hash ≠ hashF newColumns
  · simp [check_schema_changes, h, Ne.symm h]
  · rw [not_not] at h
    simp [check_schema_changes, h]

/-! ### The read-only query guard of `SQLTool._run` (lines 205-246)

`query.strip().upper()` is modelled for ASCII text (`Char.toUpper`; Python's
`str.strip` strips the six ASCII whitespace characters).  `_run` is embedded
with its observable database actions: the returned value, the updated state,
and the ordered list of SQL statements that reach the database — the
metadata reload performed by `check_schema_changes` and then the query
itself (on a cache miss).  The query executor is abstracted by the rows
`dbRows` it would produce; an execution error is out of scope for the guard
claim, so execution is modelled as succeeding. -/

/-- Python `str.strip` whitespace (ASCII): space, tab, LF, CR, VT, FF. -/
def pyIsSpace (c : Char) : Bool :=
  c == ' ' || c == '\t' || c == '\n' || c == '\r' ||
    c == Char.ofNat 11 || c == Char.ofNat 12

/-- `query.strip()`, for ASCII whitespace. -/
def pyStrip (s : String) : String :=
  String.mk (((s.data.dropWhile pyIsSpace).reverse.dropWhile pyIsSpace).reverse)

/-- `query.upper()`, for ASCII letters. -/
def pyUpper (s : String) : String :=
  String.mk (s.data.map Char.toUpper)

/-- The keyword allowlist of `_run` (line 209). -/
def allowed_query_prefixes : List String :=
  ["SELECT", "SHOW", "DESCRIBE", "EXPLAIN"]

/-- `query.strip().upper().startswith(("SELECT", "SHOW", "DESCRIBE",
"EXPLAIN"))` — the read-only guard condition of `_run` (`startswith` as
character-prefix test). -/
def is_read_only_query (q : String) : Bool :=
  allowed_query_prefixes.any fun p => p.data.isPrefixOf (pyUpper (pyStrip q)).data

/-- The metadata statement `_fetch_metadata` runs (lines 84-91). -/
def metadata_query : String :=
  "SELECT TABLE_NAME, COLUMN_NAME FROM information_schema.COLUMNS"

/-- `SQLTool._run` (lines 205-246).  Returns the result, the new state, and
the SQL statements sent to the database, in order.  The cache key
`md5(query + param_str)` is modelled by the `(query, params)` pair. -/
def sql_run (hashF : Schema → String) (newTables : List String)
    (newColumns : Schema) (dbRows : List String) (s : SQLToolState)
    (query : String) (params : String) :
    Except String (List String) × SQLToolState × List String :=
  if is_read_only_query query = false then
    (.error "Only SELECT, SHOW, DESCRIBE, and EXPLAIN queries are allowed",
      s, [])
  else
    let s1 := (check_schema_changes hashF s newTables newColumns).2
    let cache_key := (query, params)
    match s1.cache.find? fun kv => decide (kv.1 = cache_key) with
    | some kv => (.ok kv.2, s1, [metadata_query])
    | none =>
      let rows := dbRows
      let s2 := { s1 with cache := s1.cache ++ [(cache_key, rows)] }
      (.ok rows, s2, [metadata_query, query])

/-- C9: when the stripped, upper-cased query does not start with `SELECT`,
`SHOW`, `DESCRIBE` or `EXPLAIN`, `_run` raises `ValueError` before any
database contact (the action list is empty and the state untouched); when it
does start with one of them, the guard raises nothing and the run returns
rows. -/
theorem run_rejects_non_read_only_queries
    (hashF : Schema → String) (newTables : List String) (newColumns : Schema)
    (dbRows : List String) (s : SQLToolState) (query params : String) :
    (is_read_only_query query = false →
      sql_run hashF newTables newColumns dbRows s query params =
        (.error "Only SELECT, SHOW, DESCRIBE, and EXPLAIN queries are allowed",
          s, [])) ∧
    (is_read_only_query query = true →
      ∃ rows st log,
        sql_run hashF newTables newColumns dbRows s query params =
          (.ok rows, st, log)) := by
  constructor
  · intro h
    rw [sql_run, if_pos h]
  · intro h
    rw [sql_run, if_neg (by simp [h])]
    rcases hfind : (check_schema_changes hashF s newTables newColumns).2.cache.find?
        fun kv => decide (kv.1 = (query, params)) with _ | kv <;>
      simp only [hfind] <;>
      exact ⟨_, _, _, rfl⟩

/-- Witness for `run_rejects_non_read_only_queries`: `"DROP TABLE users"` is
rejected with the state untouched and no database action, while
`"  select 1"` (lower case, leading whitespace) passes the guard. -/
theorem run_rejects_non_read_only_queries_witness :
    (sql_run (fun _ => "") [] [] [] ⟨[], [], [], [], ""⟩
        "DROP TABLE users" "" =
      (.error "Only SELECT, SHOW, DESCRIBE, and EXPLAIN queries are allowed",
        (⟨[], [], [], [], ""⟩ : SQLToolState), [])) ∧
    ∃ rows st log,
      sql_run (fun _ => "") [] [] [] ⟨[], [], [], [], ""⟩ "  select 1" "" =
        (.ok rows, st, log) :=
  ⟨(run_rejects_non_read_only_queries (fun _ => "") [] [] [] ⟨[], [], [], [], ""⟩
      "DROP TABLE users" "").1 (by decide),
   (run_rejects_non_read_only_queries (fun _ => "") [] [] [] ⟨[], [], [], [], ""⟩
      "  select 1" "").2 (by decide)⟩

/-! ### Agent executor configuration (C8)

`BejoAgent._create_agent` (app/core/agent.py, lines 103-110) and
`AgentService.create_agent_executor` (app/services/agent.py, lines 122-128)
are the only two `AgentExecutor` constructions in the sources (the CrewAI
crew builds `crewai.Agent`s, not LangChain executors).  Their keyword
arguments are embedded as configuration records. -/

/-- The `AgentExecutor(...)` keyword arguments the sources set. -/
structure AgentExecutorConfig where
  max_iterations : Option Nat
  handle_parsing_errors : Bool
  verbose : Bool
  return_intermediate_steps : Bool
deriving DecidableEq, Repr

/-- The executor built by `BejoAgent._create_agent` (core/agent.py 103-110). -/
def bejoAgentExecutor : AgentExecutorConfig :=
  { max_iterations := some 5
    handle_parsing_errors := true
    verbose := true
    return_intermediate_steps := true }

/-- The executor built by `AgentService.create_agent_executor`
(services/agent.py 122-128); `return_intermediate_steps` is not passed and
defaults to `False`. -/
def agentServiceExecutor : AgentExecutorConfig :=
  { max_iterations := some 3
    handle_parsing_errors := true
    verbose := true
    return_intermediate_steps := false }

/-- C8: both agent executors the system constructs carry a finite maximum
iteration count — 5 for the `BejoAgent` executor, 3 for the `AgentService`
executor — and both enable parsing-error handling, so the agent loop is
bounded and parsing errors become observations instead of terminating it. -/
theorem agent_executors_bounded_and_error_tolerant :
    bejoAgentExecutor.max_iterations = some 5 ∧
    bejoAgentExecutor.handle_parsing_errors = true ∧
    agentServiceExecutor.max_iterations = some 3 ∧
    agentServiceExecutor.handle_parsing_errors = true ∧
    bejoAgentExecutor.max_iterations.isSome = true ∧
    agentServiceExecutor.max_iterations.isSome = true := by
  decide

/-! ### Scored search: `RetrievalService.search_similar_documents`
(app/core/retrieval.py, lines 280-298).  The documents the underlying
`retrieve_documents` SDK call yields are an input of the embedding; the
function builds a result per document with
`similarity_score = metadata.get("score", 0.0)` and keeps it only when that
score reaches `score_threshold`. -/

/-- One entry of the returned result list. -/
structure SearchResult where
  content : String
  score : Option ℚ
  similarity_score : ℚ
deriving DecidableEq, Repr

/-- The result dict built for one document (lines 288-292). -/
def toSearchResult (d : Document) : SearchResult :=
  ⟨d.page_content, d.score, d.score.getD 0⟩

/-- `search_similar_documents` (lines 280-298), given the retrieved
documents. -/
def search_similar_documents (docs : List Document) (score_threshold : ℚ) :
    List SearchResult :=
  (docs.map toSearchResult).filter fun r =>
    decide (score_threshold ≤ r.similarity_score)

/-- C10: every returned result's `similarity_score` is at least the
threshold; a document without a `"score"` metadata entry gets
`similarity_score = 0.0` and is excluded whenever the threshold is positive
(in particular under the default `0.7`). -/
theorem search_results_meet_threshold (docs : List Document)
    (score_threshold : ℚ) :
    (∀ r ∈ search_similar_documents docs score_threshold,
      score_threshold ≤ r.similarity_score) ∧
    (∀ d ∈ docs, d.score = none → (toSearchResult d).similarity_score = 0) ∧
    (0 < score_threshold → ∀ d ∈ docs, d.score = none →
      toSearchResult d ∉ search_similar_documents docs score_threshold) := by
  refine ⟨fun r hr => ?_, fun d _ hnone => ?_, fun hpos d _ hnone hmem => ?_⟩
  · have hdec := List.of_mem_filter hr
    simpa using hdec
  · simp [toSearchResult, hnone]
  · have hdec := List.of_mem_filter hmem
    simp only [decide_eq_true_eq] at hdec
    rw [show (toSearchResult d).similarity_score = 0 from by
      simp [toSearchResult, hnone]] at hdec
    exact absurd (lt_of_lt_of_le hpos hdec) (lt_irrefl 0)

/-- Witness for `search_results_meet_threshold` at the default threshold
`0.7`, one scored and one unscored document. -/
theorem search_results_meet_threshold_witness :
    ((7 : ℚ) / 10 ≤ (toSearchResult ⟨"y", some (9 / 10)⟩).similarity_score) ∧
    (toSearchResult ⟨"x", none⟩).similarity_score = 0 ∧
    toSearchResult ⟨"x", none⟩ ∉
      search_similar_documents [⟨"x", none⟩, ⟨"y", some (9 / 10)⟩] (7 / 10) := by
  have h := search_results_meet_threshold
    [⟨"x", none⟩, ⟨"y", some (9 / 10)⟩] (7 / 10)
  refine ⟨h.1 (toSearchResult ⟨"y", some (9 / 10)⟩) ?_, ?_, ?_⟩
  · rw [show search_similar_documents
        [⟨"x", none⟩, ⟨"y", some (9 / 10)⟩] (7 / 10)
        = [toSearchResult ⟨"y", some (9 / 10)⟩] from by
      norm_num [search_similar_documents, toSearchResult]]
    exact List.mem_singleton.mpr rfl
  · exact h.2.1 ⟨"x", none⟩ (List.mem_cons_self _ _) rfl
  · exact h.2.2 (by norm_num) ⟨"x", none⟩ (List.mem_cons_self _ _) rfl

end BejoBe
